import Mathlib

/-!
Verification of `ferminet/pretrain.py` (Hartree-Fock pretraining utilities).

The Python module is shallowly embedded over `ℚ`:

* numpy arrays of shape `(..., k)` become functions `ℕ → ... → ℚ`
  (leading dimensions flattened to a single batch index, trailing index flat);
* the PySCF `scf.Scf` object is abstracted by a structure `Scf` holding the
  two molecular-orbital evaluators `eval_mos` returns (one per spin channel),
  each mapping a point in `ℝ³` (here `Fin 3 → ℚ`) and a basis index to a value;
* `np.linalg.slogdet` is modelled by the mathematical determinant together
  with an abstract logarithm `log : ℚ → ℚ` applied to the absolute value
  (only algebraic properties of the log are ever used);
* the `pmap`'d pretraining step runs on `W` replicated workers, and
  `jax.lax.pmean` is the arithmetic mean over the worker axis `Fin W`;
* the optimizer, the network orbital/envelope functions and the MCMC kernel
  are external collaborators of the module and enter as opaque function
  parameters, exactly as they do in `make_pretrain_step`.
-/

/-- A batched position / value array: first index is the (flattened) leading
batch dimension, second index the flat trailing dimension. -/
abbrev PosArr : Type := ℕ → ℕ → ℚ

/-- Result of a PySCF calculation, abstracted: `eval_mos` (external to
pretrain.py) returns, for each of the two spin channels, the values of all
molecular orbitals at a 3-dimensional point.  Basis indices range over `ℕ`;
only the occupied ones are ever read. -/
structure Scf where
  eval_mos_up : (Fin 3 → ℚ) → ℕ → ℚ
  eval_mos_down : (Fin 3 → ℚ) → ℕ → ℚ

/-- The possible shapes of the `pos` argument of `eval_orbitals`
(pretrain.py lines 77-81): a plain numpy array, a non-numpy value whose
`copy()` yields an array (e.g. a JAX array), or a value with no `copy`
method at all (raising `AttributeError`). -/
inductive PosInput where
  | ndarray (a : PosArr)
  | withCopy (a : PosArr)
  | noCopy

/-- Input conversion of `eval_orbitals` (pretrain.py lines 77-81): a numpy
array is used as is; otherwise `pos.copy()` is attempted, and on
`AttributeError` a `ValueError` is raised. -/
def to_ndarray : PosInput → Except String PosArr
  | .ndarray a => Except.ok a
  | .withCopy a => Except.ok a
  | .noCopy => Except.error ("Input must be either NumPy or JAX array.")

/-- Core of `eval_orbitals` (pretrain.py lines 82-92), after the input check:
record the leading dims, reshape to `(batch*nelec, 3)`, evaluate the
molecular orbitals at every point, reshape each spin channel back to
`(batch, nelec, nbasis)` with `nelec = sum(spins)`, and slice out the
occupied alpha block `[..., :spins[0], :spins[0]]` and the occupied beta
block `[..., spins[0]:, :spins[1]]`. -/
def eval_orbitals_core (scf : Scf) (pos : PosArr) (nup ndown : ℕ) :
    (ℕ → Matrix (Fin nup) (Fin nup) ℚ) × (ℕ → Matrix (Fin ndown) (Fin ndown) ℚ) :=
  let nelec := nup + ndown
  let flat : ℕ → ℚ := fun t => pos (t / (nelec * 3)) (t % (nelec * 3))
  let point : ℕ → Fin 3 → ℚ := fun r c => flat (r * 3 + (c : ℕ))
  let mosUp : ℕ → ℕ → ℕ → ℚ := fun b e k => scf.eval_mos_up (point (b * nelec + e)) k
  let mosDown : ℕ → ℕ → ℕ → ℚ := fun b e k => scf.eval_mos_down (point (b * nelec + e)) k
  (fun b => Matrix.of fun i j => mosUp b (i : ℕ) (j : ℕ),
   fun b => Matrix.of fun i j => mosDown b (nup + (i : ℕ)) (j : ℕ))

/-- `eval_orbitals` (pretrain.py lines 61-92): input check followed by the
orbital evaluation and slicing. -/
def eval_orbitals (scf : Scf) (p : PosInput) (nup ndown : ℕ) :
    Except String
      ((ℕ → Matrix (Fin nup) (Fin nup) ℚ) × (ℕ → Matrix (Fin ndown) (Fin ndown) ℚ)) :=
  (to_ndarray p).map fun a => eval_orbitals_core scf a nup ndown

/-- The up-spin molecular-orbital tensor of shape `(..., nelec, nbasis)` as
the specification describes it: entry `(b, e, k)` is molecular orbital `k`
of the up channel evaluated at the coordinate triple of electron `e` in
batch element `b`. -/
def mos_up_tensor (scf : Scf) (pos : PosArr) (b e k : ℕ) : ℚ :=
  scf.eval_mos_up (fun c => pos b (e * 3 + (c : ℕ))) k

/-- The down-spin molecular-orbital tensor of shape `(..., nelec, nbasis)`:
entry `(b, e, k)` is molecular orbital `k` of the down channel evaluated at
the coordinate triple of electron `e` in batch element `b`. -/
def mos_down_tensor (scf : Scf) (pos : PosArr) (b e k : ℕ) : ℚ :=
  scf.eval_mos_down (fun c => pos b (e * 3 + (c : ℕ))) k

/-- The sign returned by `np.linalg.slogdet` for a real matrix:
`det / abs det`, and `0` for a singular matrix. -/
def npSign (x : ℚ) : ℚ := if x < 0 then -1 else if x = 0 then 0 else 1

/-- Model of `np.linalg.slogdet`: the pair of the sign of the determinant
and the logarithm of its absolute value, with the logarithm abstract. -/
def slogdet {n : ℕ} (log : ℚ → ℚ) (M : Matrix (Fin n) (Fin n) ℚ) : ℚ × ℚ :=
  (npSign M.det, log |M.det|)

/-- Core of `eval_slater` (pretrain.py lines 95-112) on one batch element:
evaluate the per-spin orbital matrices, take `slogdet` of each, and combine
as `sign = sign_alpha * sign_beta`,
`log_abs_slater_determinant = log_abs_wf_alpha + log_abs_wf_beta`. -/
def eval_slater_core (scf : Scf) (pos : PosArr) (nup ndown : ℕ) (log : ℚ → ℚ)
    (b : ℕ) : ℚ × ℚ :=
  let matrices := eval_orbitals_core scf pos nup ndown
  let sa := slogdet log (matrices.1 b)
  let sb := slogdet log (matrices.2 b)
  (sa.1 * sb.1, sa.2 + sb.2)

/-- The positions array with the coordinate triples of electrons `p` and `q`
exchanged (in every batch element): flat trailing index `t` belongs to
electron `t / 3`, coordinate `t % 3`. -/
def swap_electrons (p q : ℕ) (pos : PosArr) : PosArr :=
  fun b t => pos b (Equiv.swap p q (t / 3) * 3 + t % 3)

/-- `jnp.concatenate(..., axis=-1)` for rank-3 arrays, where the first
array has `c1` columns. -/
def concat_cols (c1 : ℕ) (A B : ℕ → ℕ → ℕ → ℚ) : ℕ → ℕ → ℕ → ℚ :=
  fun d i j => if j < c1 then A d i j else B d i (j - c1)

/-- `jnp.concatenate(..., axis=-2)` for rank-3 arrays, where the first
array has `r1` rows. -/
def concat_rows (r1 : ℕ) (A B : ℕ → ℕ → ℕ → ℚ) : ℕ → ℕ → ℕ → ℚ :=
  fun d i j => if i < r1 then A d i j else B d (i - r1) j

/-- `jnp.zeros` for rank-3 arrays. -/
def zeros3 : ℕ → ℕ → ℕ → ℚ := fun _ _ _ => 0

/-- The combined target matrix built by `pretrain_step.loss_fn` in
full-determinant mode (pretrain.py lines 150-157): row-concatenation of
`[target[0] ++ zeros((ndet, na, nb))]` and `[zeros((ndet, nb, na)) ++
target[1]]`, with `na = target[0].shape[1]` and `nb = target[1].shape[1]`. -/
def full_det_target (na nb : ℕ) (t0 t1 : ℕ → ℕ → ℕ → ℚ) : ℕ → ℕ → ℕ → ℚ :=
  concat_rows na (concat_cols na t0 zeros3) (concat_cols na zeros3 t1)

/-- The envelope-closure selection performed by `pretrain_hartree_fock`
(pretrain.py lines 231-242): the string tag `envelope_type` selects the
exact-cusp envelope, the output envelope, or — for any other value — the
constant-zero function `lambda p, x: 0.0`.  The two non-trivial envelope
closures are built from `ferminet.networks` (external to pretrain.py) and
enter as opaque parameters. -/
def select_envelope_fn {P X : Type} (envelope_type : String)
    (cusp out : P → X → ℚ) : P → X → ℚ :=
  if envelope_type = "exact_cusp" then cusp
  else if envelope_type = "output" then out
  else fun _ _ => 0

/-- The default value of the `envelope_type` keyword argument of
`pretrain_hartree_fock` (pretrain.py line 187). -/
def envelope_type_default : String := "full"

/-- The external collaborators threaded through `make_pretrain_step`
(pretrain.py lines 115-141), one worker-local copy each:

* `lossOf` — the local (pre-`pmean`) value of `loss_fn` at a batch of data,
  parameters and reference targets;
* `gradOf` — the worker-local gradient of the loss produced by
  `jax.value_and_grad`, as a function of an abstract coordinate index `V`;
* `optUpdate`/`applyUpdates` — `optimizer.update` and
  `optax.apply_updates`;
* `mhUpdate` — Modelled from the spec: `mcmc.mh_update` is repository code
  not present under `src/`; per the specification's external interface
  `advance(params, network_fn, positions, rng, logprob, move_width) ->
  (new_positions, new_rng, new_logprob, accept_count)`, with
  `batch_network` absorbed into the closure. -/
structure OptComponents (D P S K U T V : Type) where
  lossOf : D → P → T → ℚ
  gradOf : D → P → T → V → ℚ
  optUpdate : (V → ℚ) → S → P → U × S
  applyUpdates : P → U → P
  mhUpdate : P → D → K → ℚ → ℚ → D × K × ℚ × ℕ

/-- The tuple returned by `pretrain_step`
(`data, params, state, loss_val, logprob`), one entry per worker. -/
structure PretrainOut (D P S : Type) (W : ℕ) where
  data : Fin W → D
  params : Fin W → P
  state : Fin W → S
  loss : Fin W → ℚ
  logprob : Fin W → ℚ

/-- `pretrain_step` (pretrain.py lines 143-175) across `W` replicated
workers.  `loss_fn` ends in `jax.lax.pmean`, so the loss value every worker
receives is the mean of the worker-local losses; the gradient
(`search_direction`) is `pmean`'d across workers, the optimizer update is
applied, and finally `mcmc.mh_update` is called once with the updated
parameters and a final argument of `0`. -/
def pretrain_step {D P S K U T V : Type} (W : ℕ) (C : OptComponents D P S K U T V)
    (data : Fin W → D) (target : Fin W → T) (params : Fin W → P)
    (state : Fin W → S) (key : Fin W → K) (logprob : Fin W → ℚ) :
    PretrainOut D P S W :=
  let loss_val : Fin W → ℚ :=
    fun _ => (∑ u, C.lossOf (data u) (params u) (target u)) / (W : ℚ)
  let search_direction : Fin W → V → ℚ :=
    fun _ v => (∑ u, C.gradOf (data u) (params u) (target u) v) / (W : ℚ)
  let upd : Fin W → U × S :=
    fun w => C.optUpdate (search_direction w) (state w) (params w)
  let params2 : Fin W → P := fun w => C.applyUpdates (params w) (upd w).1
  let mh : Fin W → D × K × ℚ × ℕ :=
    fun w => C.mhUpdate (params2 w) (data w) (key w) (logprob w) 0
  { data := fun w => (mh w).1
    params := params2
    state := fun w => (upd w).2
    loss := loss_val
    logprob := fun w => (mh w).2.2.1 }

/-- Concrete reference model used by concrete instantiations below. -/
def wScf : Scf :=
  { eval_mos_up := fun pt k => pt 0 + (k : ℚ) * pt 1 + pt 2
    eval_mos_down := fun pt k => pt 0 * pt 1 + (k : ℚ) }

/-- Concrete positions array used by concrete instantiations below. -/
def wPos : PosArr := fun b t => (b : ℚ) + (t : ℚ) * (t : ℚ)

/-- Concrete optimizer/network/MCMC collaborators for a two-worker run. -/
def wComponents : OptComponents ℚ ℚ ℚ ℚ ℚ ℚ ℚ :=
  { lossOf := fun d p t => d * p + t
    gradOf := fun d p t v => d + p + t + v
    optUpdate := fun g s p => (g 0 + p, s + 1)
    applyUpdates := fun p u => p - u
    mhUpdate := fun p d k l width => (d + p + width, k, l, 0) }

/-- Concrete two-worker data batch, differing between the workers. -/
def wData : Fin 2 → ℚ := fun w => ((w : ℕ) : ℚ)

/-- Concrete two-worker targets. -/
def wTarget : Fin 2 → ℚ := fun _ => 1

/-- Concrete two-worker parameters, identical across workers. -/
def wParams : Fin 2 → ℚ := fun _ => 5

/-- Concrete two-worker optimizer state, identical across workers. -/
def wState : Fin 2 → ℚ := fun _ => 2

/-- Concrete two-worker RNG keys. -/
def wKey : Fin 2 → ℚ := fun _ => 0

/-- Concrete two-worker log-probabilities. -/
def wLogprob : Fin 2 → ℚ := fun _ => 0

lemma reshape_div (nelec b e c : ℕ) (he : e < nelec) (hc : c < 3) :
    ((b * nelec + e) * 3 + c) / (nelec * 3) = b := by
  have h0 : 0 < nelec * 3 := by omega
  have h2 : e * 3 + c < nelec * 3 := by omega
  have h1 : (b * nelec + e) * 3 + c = e * 3 + c + nelec * 3 * b := by ring
  rw [h1, Nat.add_mul_div_left _ _ h0, Nat.div_eq_of_lt h2, Nat.zero_add]

lemma reshape_mod (nelec b e c : ℕ) (he : e < nelec) (hc : c < 3) :
    ((b * nelec + e) * 3 + c) % (nelec * 3) = e * 3 + c := by
  have h2 : e * 3 + c < nelec * 3 := by omega
  have h1 : (b * nelec + e) * 3 + c = e * 3 + c + nelec * 3 * b := by ring
  rw [h1, Nat.add_mul_mod_self_left, Nat.mod_eq_of_lt h2]

lemma alpha_apply (scf : Scf) (pos : PosArr) (nup ndown b : ℕ) (i j : Fin nup) :
    (eval_orbitals_core scf pos nup ndown).1 b i j =
      mos_up_tensor scf pos b (i : ℕ) (j : ℕ) := by
  have hi : (i : ℕ) < nup + ndown := lt_of_lt_of_le i.isLt (Nat.le_add_right _ _)
  show scf.eval_mos_up
      (fun c => pos (((b * (nup + ndown) + (i : ℕ)) * 3 + (c : ℕ)) / ((nup + ndown) * 3))
        (((b * (nup + ndown) + (i : ℕ)) * 3 + (c : ℕ)) % ((nup + ndown) * 3))) (j : ℕ) = _
  unfold mos_up_tensor
  congr 1
  funext c
  rw [reshape_div _ _ _ _ hi c.isLt, reshape_mod _ _ _ _ hi c.isLt]

lemma beta_apply (scf : Scf) (pos : PosArr) (nup ndown b : ℕ) (i j : Fin ndown) :
    (eval_orbitals_core scf pos nup ndown).2 b i j =
      mos_down_tensor scf pos b (nup + (i : ℕ)) (j : ℕ) := by
  have hi : nup + (i : ℕ) < nup + ndown := Nat.add_lt_add_left i.isLt nup
  show scf.eval_mos_down
      (fun c => pos (((b * (nup + ndown) + (nup + (i : ℕ))) * 3 + (c : ℕ)) / ((nup + ndown) * 3))
        (((b * (nup + ndown) + (nup + (i : ℕ))) * 3 + (c : ℕ)) % ((nup + ndown) * 3))) (j : ℕ) = _
  unfold mos_down_tensor
  congr 1
  funext c
  rw [reshape_div _ _ _ _ hi c.isLt, reshape_mod _ _ _ _ hi c.isLt]

lemma eval_slater_core_fst (scf : Scf) (pos : PosArr) (nup ndown : ℕ)
    (log : ℚ → ℚ) (b : ℕ) :
    (eval_slater_core scf pos nup ndown log b).1 =
      npSign ((eval_orbitals_core scf pos nup ndown).1 b).det *
        npSign ((eval_orbitals_core scf pos nup ndown).2 b).det := rfl

lemma eval_slater_core_snd (scf : Scf) (pos : PosArr) (nup ndown : ℕ)
    (log : ℚ → ℚ) (b : ℕ) :
    (eval_slater_core scf pos nup ndown log b).2 =
      log |((eval_orbitals_core scf pos nup ndown).1 b).det| +
        log |((eval_orbitals_core scf pos nup ndown).2 b).det| := rfl

lemma npSign_cases (x : ℚ) : npSign x = -1 ∨ npSign x = 0 ∨ npSign x = 1 := by
  unfold npSign
  split_ifs with h1 h2
  · exact Or.inl rfl
  · exact Or.inr (Or.inl rfl)
  · exact Or.inr (Or.inr rfl)

lemma npSign_neg (x : ℚ) : npSign (-x) = -npSign x := by
  rcases lt_trichotomy x 0 with h | h | h
  · unfold npSign
    rw [if_neg (by linarith), if_neg (by intro hc; linarith), if_pos h]
    norm_num
  · subst h
    simp [npSign]
  · unfold npSign
    rw [if_pos (by linarith : -x < 0), if_neg (by linarith : ¬x < 0)]
    rw [if_neg (by intro hc; linarith : ¬x = 0)]

lemma swap_coe {m : ℕ} (p q i : Fin m) :
    ((Equiv.swap p q i : Fin m) : ℕ) = Equiv.swap (p : ℕ) (q : ℕ) (i : ℕ) := by
  by_cases h1 : i = p
  · subst h1
    rw [Equiv.swap_apply_left, Equiv.swap_apply_left]
  · by_cases h2 : i = q
    · subst h2
      rw [Equiv.swap_apply_right, Equiv.swap_apply_right]
    · rw [Equiv.swap_apply_of_ne_of_ne h1 h2,
        Equiv.swap_apply_of_ne_of_ne (Fin.val_injective.ne h1) (Fin.val_injective.ne h2)]

lemma swap_electrons_triple (p q : ℕ) (pos : PosArr) (b e : ℕ) :
    (fun c : Fin 3 => swap_electrons p q pos b (e * 3 + (c : ℕ))) =
      fun c : Fin 3 => pos b (Equiv.swap p q e * 3 + (c : ℕ)) := by
  funext c
  show pos b (Equiv.swap p q ((e * 3 + (c : ℕ)) / 3) * 3 + (e * 3 + (c : ℕ)) % 3) = _
  have h1 : (e * 3 + (c : ℕ)) / 3 = e := by omega
  have h2 : (e * 3 + (c : ℕ)) % 3 = (c : ℕ) := by omega
  rw [h1, h2]

lemma mos_up_tensor_swap (scf : Scf) (p q : ℕ) (pos : PosArr) (b e k : ℕ) :
    mos_up_tensor scf (swap_electrons p q pos) b e k =
      mos_up_tensor scf pos b (Equiv.swap p q e) k := by
  unfold mos_up_tensor
  exact congrFun (congrArg scf.eval_mos_up (swap_electrons_triple p q pos b e)) k

lemma mos_down_tensor_swap (scf : Scf) (p q : ℕ) (pos : PosArr) (b e k : ℕ) :
    mos_down_tensor scf (swap_electrons p q pos) b e k =
      mos_down_tensor scf pos b (Equiv.swap p q e) k := by
  unfold mos_down_tensor
  exact congrFun (congrArg scf.eval_mos_down (swap_electrons_triple p q pos b e)) k

lemma swap_shift (nup p q i : ℕ) (hp : nup ≤ p) (hq : nup ≤ q) :
    Equiv.swap p q (nup + i) = nup + Equiv.swap (p - nup) (q - nup) i := by
  rcases eq_or_ne (nup + i) p with h1 | h1
  · have hi : i = p - nup := by omega
    rw [h1, Equiv.swap_apply_left, hi, Equiv.swap_apply_left]
    omega
  · rcases eq_or_ne (nup + i) q with h2 | h2
    · have hi : i = q - nup := by omega
      rw [h2, Equiv.swap_apply_right, hi, Equiv.swap_apply_right]
      omega
    · rw [Equiv.swap_apply_of_ne_of_ne h1 h2,
        Equiv.swap_apply_of_ne_of_ne (show i ≠ p - nup by omega) (show i ≠ q - nup by omega)]

/-- Claim C1: in full-determinant mode, for every pair of reference target
arrays (alpha of shape `(ndet, na, na)`, beta of shape `(ndet, nb, nb)`),
the combined target built by the pretrain-step loss function has extent
`(na+nb) × (na+nb)` in its last two axes, its top-left `na × na` block
equals the alpha target, its bottom-right `nb × nb` block equals the beta
target, and both off-diagonal blocks are exactly zero. -/
theorem full_det_target_blocks (na nb : ℕ) (t0 t1 : ℕ → ℕ → ℕ → ℚ) (d i j : ℕ)
    (hi : i < na + nb) (hj : j < na + nb) :
    (i < na → j < na → full_det_target na nb t0 t1 d i j = t0 d i j) ∧
    (na ≤ i → na ≤ j → full_det_target na nb t0 t1 d i j = t1 d (i - na) (j - na)) ∧
    (i < na → na ≤ j → full_det_target na nb t0 t1 d i j = 0) ∧
    (na ≤ i → j < na → full_det_target na nb t0 t1 d i j = 0) := by
  unfold full_det_target concat_rows concat_cols zeros3
  refine ⟨fun h1 h2 => ?_, fun h1 h2 => ?_, fun h1 h2 => ?_, fun h1 h2 => ?_⟩
  · rw [if_pos h1, if_pos h2]
  · rw [if_neg (not_lt.mpr h1), if_neg (not_lt.mpr h2)]
  · rw [if_pos h1, if_neg (not_lt.mpr h2)]
  · rw [if_neg (not_lt.mpr h1), if_pos h2]

theorem full_det_target_blocks_witness :
    ((0 : ℕ) < 1 + 1 ∧ (1 : ℕ) < 1 + 1) ∧
    full_det_target 1 1 (fun _ _ _ => (2 : ℚ)) (fun _ _ _ => (3 : ℚ)) 0 0 0 = 2 ∧
    full_det_target 1 1 (fun _ _ _ => (2 : ℚ)) (fun _ _ _ => (3 : ℚ)) 0 1 1 = 3 ∧
    full_det_target 1 1 (fun _ _ _ => (2 : ℚ)) (fun _ _ _ => (3 : ℚ)) 0 0 1 = 0 ∧
    full_det_target 1 1 (fun _ _ _ => (2 : ℚ)) (fun _ _ _ => (3 : ℚ)) 0 1 0 = 0 :=
  ⟨⟨by decide, by decide⟩,
    (full_det_target_blocks 1 1 _ _ 0 0 0 (by decide) (by decide)).1 (by decide) (by decide),
    (full_det_target_blocks 1 1 _ _ 0 1 1 (by decide) (by decide)).2.1 (by decide) (by decide),
    (full_det_target_blocks 1 1 _ _ 0 0 1 (by decide) (by decide)).2.2.1 (by decide) (by decide),
    (full_det_target_blocks 1 1 _ _ 0 1 0 (by decide) (by decide)).2.2.2 (by decide) (by decide)⟩

/-- Claim C2: in every pretrain step, the search direction handed to the
optimizer is the worker-average of the locally computed gradients (so the
reduction happens before the update), the optimizer update produces the new
parameters and the new optimizer state, and the MCMC sampler is then
advanced by exactly one `mh_update` call that receives the post-update
parameters and a move-width argument of `0`. -/
theorem pretrain_step_order {D P S K U T V : Type} (W : ℕ)
    (C : OptComponents D P S K U T V) (data : Fin W → D) (target : Fin W → T)
    (params : Fin W → P) (state : Fin W → S) (key : Fin W → K)
    (logprob : Fin W → ℚ) :
    (∀ w, (pretrain_step W C data target params state key logprob).params w =
        C.applyUpdates (params w)
          (C.optUpdate
            (fun v => (∑ u, C.gradOf (data u) (params u) (target u) v) / (W : ℚ))
            (state w) (params w)).1) ∧
    (∀ w, (pretrain_step W C data target params state key logprob).state w =
        (C.optUpdate
          (fun v => (∑ u, C.gradOf (data u) (params u) (target u) v) / (W : ℚ))
          (state w) (params w)).2) ∧
    (∀ w, (pretrain_step W C data target params state key logprob).data w =
        (C.mhUpdate ((pretrain_step W C data target params state key logprob).params w)
          (data w) (key w) (logprob w) 0).1) ∧
    (∀ w, (pretrain_step W C data target params state key logprob).logprob w =
        (C.mhUpdate ((pretrain_step W C data target params state key logprob).params w)
          (data w) (key w) (logprob w) 0).2.2.1) :=
  ⟨fun _ => rfl, fun _ => rfl, fun _ => rfl, fun _ => rfl⟩

/-- Claim C3: for every positions array of shape `(..., nelec*3)` and every
spin pair `(nup, ndown)`, the alpha output of `eval_orbitals` is the
`(..., nup, nup)` slice of the first `nup` rows and first `nup` columns of
the up-spin molecular-orbital tensor, and the beta output is the
`(..., ndown, ndown)` slice of rows `nup` onward and the first `ndown`
columns of the down-spin molecular-orbital tensor, with the same leading
dimension as the input. -/
theorem eval_orbitals_slices (scf : Scf) (pos : PosArr) (nup ndown b : ℕ) :
    (∀ i j : Fin nup,
      (eval_orbitals_core scf pos nup ndown).1 b i j =
        mos_up_tensor scf pos b (i : ℕ) (j : ℕ)) ∧
    (∀ i j : Fin ndown,
      (eval_orbitals_core scf pos nup ndown).2 b i j =
        mos_down_tensor scf pos b (nup + (i : ℕ)) (j : ℕ)) :=
  ⟨fun i j => alpha_apply scf pos nup ndown b i j,
   fun i j => beta_apply scf pos nup ndown b i j⟩

/-- Claim C4: for every positions input, `eval_slater` returns a sign equal
to the product of the per-spin-channel `slogdet` signs and a log-magnitude
equal to the sum of the per-spin-channel `slogdet` log-absolute-determinant
values, and the returned sign is always `-1`, `0` or `1`. -/
theorem eval_slater_sign_log (scf : Scf) (pos : PosArr) (nup ndown : ℕ)
    (log : ℚ → ℚ) (b : ℕ) :
    (eval_slater_core scf pos nup ndown log b).1 =
      (slogdet log ((eval_orbitals_core scf pos nup ndown).1 b)).1 *
        (slogdet log ((eval_orbitals_core scf pos nup ndown).2 b)).1 ∧
    (eval_slater_core scf pos nup ndown log b).2 =
      (slogdet log ((eval_orbitals_core scf pos nup ndown).1 b)).2 +
        (slogdet log ((eval_orbitals_core scf pos nup ndown).2 b)).2 ∧
    ((eval_slater_core scf pos nup ndown log b).1 = -1 ∨
      (eval_slater_core scf pos nup ndown log b).1 = 0 ∨
      (eval_slater_core scf pos nup ndown log b).1 = 1) := by
  refine ⟨rfl, rfl, ?_⟩
  rw [eval_slater_core_fst]
  rcases npSign_cases ((eval_orbitals_core scf pos nup ndown).1 b).det with h1 | h1 | h1 <;>
    rcases npSign_cases ((eval_orbitals_core scf pos nup ndown).2 b).det with h2 | h2 | h2 <;>
      rw [h1, h2] <;> norm_num

/-- Claim C5: if every worker enters a pretrain step with the same
parameters and the same optimizer state, then after the step every worker
holds identical parameters, even when the locally computed gradients differ,
because the averaged search direction is the same on every worker. -/
theorem pretrain_step_workers_sync {D P S K U T V : Type} (W : ℕ)
    (C : OptComponents D P S K U T V) (data : Fin W → D) (target : Fin W → T)
    (params : Fin W → P) (state : Fin W → S) (key : Fin W → K)
    (logprob : Fin W → ℚ)
    (hP : ∀ w w', params w = params w') (hS : ∀ w w', state w = state w') :
    ∀ w w', (pretrain_step W C data target params state key logprob).params w =
      (pretrain_step W C data target params state key logprob).params w' := by
  intro w w'
  show C.applyUpdates (params w)
      (C.optUpdate
        (fun v => (∑ u, C.gradOf (data u) (params u) (target u) v) / (W : ℚ))
        (state w) (params w)).1 =
    C.applyUpdates (params w')
      (C.optUpdate
        (fun v => (∑ u, C.gradOf (data u) (params u) (target u) v) / (W : ℚ))
        (state w') (params w')).1
  rw [hP w w', hS w w']

theorem pretrain_step_workers_sync_witness :
    (∀ w w' : Fin 2, wParams w = wParams w') ∧
    (∀ w w' : Fin 2, wState w = wState w') ∧
    wComponents.gradOf (wData 0) (wParams 0) (wTarget 0) 0 ≠
      wComponents.gradOf (wData 1) (wParams 1) (wTarget 1) 0 ∧
    (pretrain_step 2 wComponents wData wTarget wParams wState wKey wLogprob).params 0 =
      (pretrain_step 2 wComponents wData wTarget wParams wState wKey wLogprob).params 1 :=
  ⟨fun _ _ => rfl, fun _ _ => rfl,
    by norm_num [wComponents, wData, wParams, wTarget, Fin.val_zero, Fin.val_one],
    pretrain_step_workers_sync 2 wComponents wData wTarget wParams wState wKey wLogprob
      (fun _ _ => rfl) (fun _ _ => rfl) 0 1⟩

/-- Claim C6: for every positions input and every pair of distinct same-spin
electron indices, evaluating the Slater determinant with the two electrons'
coordinate triples swapped negates the sign and leaves the log-magnitude
unchanged. -/
theorem eval_slater_swap_antisym (scf : Scf) (pos : PosArr) (nup ndown : ℕ)
    (log : ℚ → ℚ) (p q b : ℕ) (hpq : p ≠ q)
    (hcase : p < nup ∧ q < nup ∨
      nup ≤ p ∧ p < nup + ndown ∧ nup ≤ q ∧ q < nup + ndown) :
    (eval_slater_core scf (swap_electrons p q pos) nup ndown log b).1 =
      -(eval_slater_core scf pos nup ndown log b).1 ∧
    (eval_slater_core scf (swap_electrons p q pos) nup ndown log b).2 =
      (eval_slater_core scf pos nup ndown log b).2 := by
  rcases hcase with ⟨hp, hq⟩ | ⟨hp1, hp2, hq1, hq2⟩
  · have hA : (eval_orbitals_core scf (swap_electrons p q pos) nup ndown).1 b =
        ((eval_orbitals_core scf pos nup ndown).1 b).submatrix
          (Equiv.swap (⟨p, hp⟩ : Fin nup) ⟨q, hq⟩) id := by
      ext i j
      rw [alpha_apply, Matrix.submatrix_apply, id_eq, alpha_apply, mos_up_tensor_swap,
        swap_coe]
    have hB : (eval_orbitals_core scf (swap_electrons p q pos) nup ndown).2 b =
        (eval_orbitals_core scf pos nup ndown).2 b := by
      ext i j
      rw [beta_apply, beta_apply, mos_down_tensor_swap,
        Equiv.swap_apply_of_ne_of_ne (show nup + (i : ℕ) ≠ p by omega)
          (show nup + (i : ℕ) ≠ q by omega)]
    have hne : (⟨p, hp⟩ : Fin nup) ≠ ⟨q, hq⟩ := fun hc => hpq (congrArg Fin.val hc)
    have hdetA : ((eval_orbitals_core scf (swap_electrons p q pos) nup ndown).1 b).det =
        -((eval_orbitals_core scf pos nup ndown).1 b).det := by
      rw [hA, Matrix.det_permute, Equiv.Perm.sign_swap hne]
      simp
    constructor
    · rw [eval_slater_core_fst, eval_slater_core_fst, hdetA, hB, npSign_neg]
      ring
    · rw [eval_slater_core_snd, eval_slater_core_snd, hdetA, hB, abs_neg]
  · have hA : (eval_orbitals_core scf (swap_electrons p q pos) nup ndown).1 b =
        (eval_orbitals_core scf pos nup ndown).1 b := by
      ext i j
      rw [alpha_apply, alpha_apply, mos_up_tensor_swap,
        Equiv.swap_apply_of_ne_of_ne (show (i : ℕ) ≠ p by omega)
          (show (i : ℕ) ≠ q by omega)]
    have hlt1 : p - nup < ndown := by omega
    have hlt2 : q - nup < ndown := by omega
    have hB : (eval_orbitals_core scf (swap_electrons p q pos) nup ndown).2 b =
        ((eval_orbitals_core scf pos nup ndown).2 b).submatrix
          (Equiv.swap (⟨p - nup, hlt1⟩ : Fin ndown) ⟨q - nup, hlt2⟩) id := by
      ext i j
      rw [Matrix.submatrix_apply, id_eq, beta_apply, beta_apply, mos_down_tensor_swap,
        swap_shift nup p q (i : ℕ) hp1 hq1, swap_coe]
    have hne : (⟨p - nup, hlt1⟩ : Fin ndown) ≠ ⟨q - nup, hlt2⟩ := by
      intro hc
      have hv := congrArg Fin.val hc
      simp only [Fin.val_mk] at hv
      omega
    have hdetB : ((eval_orbitals_core scf (swap_electrons p q pos) nup ndown).2 b).det =
        -((eval_orbitals_core scf pos nup ndown).2 b).det := by
      rw [hB, Matrix.det_permute, Equiv.Perm.sign_swap hne]
      simp
    constructor
    · rw [eval_slater_core_fst, eval_slater_core_fst, hdetB, hA, npSign_neg]
      ring
    · rw [eval_slater_core_snd, eval_slater_core_snd, hdetB, hA, abs_neg]

theorem eval_slater_swap_antisym_witness :
    ((0 : ℕ) ≠ 1 ∧ (0 : ℕ) < 2 ∧ (1 : ℕ) < 2) ∧
    (eval_slater_core wScf (swap_electrons 0 1 wPos) 2 0 id 0).1 =
      -(eval_slater_core wScf wPos 2 0 id 0).1 ∧
    (eval_slater_core wScf (swap_electrons 0 1 wPos) 2 0 id 0).2 =
      (eval_slater_core wScf wPos 2 0 id 0).2 :=
  ⟨⟨by decide, by decide, by decide⟩,
    (eval_slater_swap_antisym wScf wPos 2 0 id 0 1 0 (by decide)
      (Or.inl ⟨by decide, by decide⟩)).1,
    (eval_slater_swap_antisym wScf wPos 2 0 id 0 1 0 (by decide)
      (Or.inl ⟨by decide, by decide⟩)).2⟩

/-- Claim C7: for every `envelope_type` value other than `"exact_cusp"` and
`"output"`, the envelope function selected by the pretraining driver is the
constant-zero function: it returns exactly `0` for all parameters and all
positions, the log-domain neutral value. -/
theorem envelope_other_zero {P X : Type} (et : String) (cusp out : P → X → ℚ)
    (h1 : et ≠ "exact_cusp") (h2 : et ≠ "output") (p : P) (x : X) :
    select_envelope_fn et cusp out p x = 0 := by
  unfold select_envelope_fn
  rw [if_neg h1, if_neg h2]

theorem envelope_other_zero_witness :
    ("full_not_a_branch" : String) ≠ "exact_cusp" ∧
    ("full_not_a_branch" : String) ≠ "output" ∧
    select_envelope_fn ("full_not_a_branch") (fun p x : ℚ => p * x)
      (fun p x : ℚ => p + x) 3 4 = 0 :=
  ⟨by decide, by decide,
    envelope_other_zero ("full_not_a_branch") (fun p x : ℚ => p * x)
      (fun p x : ℚ => p + x) (by decide) (by decide) 3 4⟩

/-- Claim C8: a positions value with no numeric-array representation makes
`eval_orbitals` fail with the input-type `ValueError` before any orbital
evaluation (the result is the same error for every reference model), while
a plain numpy array or a value convertible via `copy()` (e.g. a JAX array)
raises no error and yields the evaluated orbitals. -/
theorem eval_orbitals_input_check (scf : Scf) (nup ndown : ℕ) :
    (∀ a, eval_orbitals scf (PosInput.ndarray a) nup ndown =
      Except.ok (eval_orbitals_core scf a nup ndown)) ∧
    (∀ a, eval_orbitals scf (PosInput.withCopy a) nup ndown =
      Except.ok (eval_orbitals_core scf a nup ndown)) ∧
    eval_orbitals scf PosInput.noCopy nup ndown =
      Except.error ("Input must be either NumPy or JAX array.") :=
  ⟨fun _ => rfl, fun _ => rfl, rfl⟩

/-- Claim C9: the loss value returned by a pretrain step is the
worker-averaged loss evaluated at the parameters the step received — the
pre-update parameters — not at the updated parameters it returns. -/
theorem pretrain_step_loss_pre_update {D P S K U T V : Type} (W : ℕ)
    (C : OptComponents D P S K U T V) (data : Fin W → D) (target : Fin W → T)
    (params : Fin W → P) (state : Fin W → S) (key : Fin W → K)
    (logprob : Fin W → ℚ) :
    ∀ w, (pretrain_step W C data target params state key logprob).loss w =
      (∑ u, C.lossOf (data u) (params u) (target u)) / (W : ℚ) :=
  fun _ => rfl

/-- Claim C10: the driver's default `envelope_type` value is `"full"`, which
matches neither the `"exact_cusp"` branch nor the `"output"` branch, so when
the caller omits `envelope_type` the selected envelope function is the
constant-zero no-op. -/
theorem envelope_default_noop :
    envelope_type_default ≠ "exact_cusp" ∧
    envelope_type_default ≠ "output" ∧
    ∀ (P X : Type) (cusp out : P → X → ℚ) (p : P) (x : X),
      select_envelope_fn envelope_type_default cusp out p x = 0 := by
  refine ⟨by decide, by decide, fun P X cusp out p x => ?_⟩
  unfold select_envelope_fn envelope_type_default
  rw [if_neg (by decide : ¬("full" : String) = "exact_cusp"),
    if_neg (by decide : ¬("full" : String) = "output")]
